import Mathlib

/-!
Verification development for the SAYSO backend (src/server.js).

The core under specification is the presence/notification directory:

  const onlineUsers = new Map();
  socket.on('register', (userId) => { onlineUsers.set(userId, socket.id); });
  socket.on('disconnect', () => {
    for (let [userId, socketId] of onlineUsers.entries()) {
      if (socketId === socket.id) { onlineUsers.delete(userId); break; }
    }
  });

A JavaScript `Map` is an insertion-ordered collection of key/value pairs
with unique keys; `set` updates the value of an existing key in place
(keeping its position) or appends a fresh key at the end, `get` returns the
value or `undefined`, and iteration visits entries in insertion order.
We embed the directory as an association list `List (String × String)` of
(userId, socketId) pairs in insertion order.
-/

/-- The presence directory: (user identity, connection handle) pairs in
insertion order, mirroring a JavaScript `Map`. -/
abbrev Dir := List (String × String)

/-- `onlineUsers.set(userId, socket.id)`: update the entry for `u` in place
if present (first occurrence, which is the only one on states with unique
keys), otherwise append `(u, c)` at the end. -/
def register (d : Dir) (u c : String) : Dir :=
  match d with
  | [] => [(u, c)]
  | p :: rest => if p.1 = u then (u, c) :: rest else p :: register rest u c

/-- `onlineUsers.get(u)`: value of the entry whose key is `u`, or `none`. -/
def lookup (d : Dir) (u : String) : Option String :=
  match d with
  | [] => none
  | p :: rest => if p.1 = u then some p.2 else lookup rest u

/-- The `disconnect` handler: scan entries in insertion order, delete the
first one whose value equals `c`, then break; no-op when no value matches. -/
def removeByConnection (d : Dir) (c : String) : Dir :=
  match d with
  | [] => []
  | p :: rest => if p.2 = c then rest else p :: removeByConnection rest c

/-- An operation on the presence directory. -/
inductive Op where
  | reg (u c : String)
  | remByConn (c : String)
deriving DecidableEq

/-- One operation applied to a directory state. -/
def step (d : Dir) : Op → Dir
  | Op.reg u c => register d u c
  | Op.remByConn c => removeByConnection d c

/-- Directory state reached by a sequence of operations from the empty
directory. -/
def run (ops : List Op) : Dir := ops.foldl step []

/-- The (userId, connectionHandle) arguments of the `register` operations
in a sequence. -/
def regPairs (ops : List Op) : List (String × String) :=
  ops.filterMap fun o =>
    match o with
    | Op.reg u c => some (u, c)
    | Op.remByConn _ => none

/-- The registrations in `regs` whose user identity is `u`. -/
def regsFor (regs : List (String × String)) (u : String) : List (String × String) :=
  regs.filter fun p => p.1 == u

/-- Directory state after a sequence of bare `register` calls from the
empty directory. -/
def regRun (regs : List (String × String)) : Dir :=
  regs.foldl (fun d p => register d p.1 p.2) []

-- Basic lemmas about the directory operations

theorem lookup_register_self (d : Dir) (u c : String) :
    lookup (register d u c) u = some c := by
  induction d with
  | nil => simp [register, lookup]
  | cons p rest ih =>
    by_cases h : p.1 = u
    · simp [register, h, lookup]
    · simp [register, h, lookup, ih]

theorem lookup_register_ne (d : Dir) {u' u : String} (c : String) (h : u' ≠ u) :
    lookup (register d u' c) u = lookup d u := by
  induction d with
  | nil => simp [register, lookup, h]
  | cons p rest ih =>
    by_cases hp : p.1 = u'
    · simp [register, hp, lookup, h, hp ▸ h]
    · simp [register, hp, lookup, ih]

theorem mem_register {d : Dir} {u c : String} {p : String × String}
    (h : p ∈ register d u c) : p ∈ d ∨ p = (u, c) := by
  induction d with
  | nil => simp [register] at h; simp [h]
  | cons q rest ih =>
    by_cases hq : q.1 = u
    · simp [register, hq] at h
      rcases h with h | h
      · right; simp [h]
      · left; simp [h]
    · simp [register, hq] at h
      rcases h with h | h
      · left; simp [h]
      · rcases ih h with h' | h'
        · left; simp [h']
        · right; exact h'

theorem map_fst_register (d : Dir) (u c : String) :
    (register d u c).map Prod.fst =
      if u ∈ d.map Prod.fst then d.map Prod.fst else d.map Prod.fst ++ [u] := by
  induction d with
  | nil => simp [register]
  | cons p rest ih =>
    by_cases hp : p.1 = u
    · simp [register, hp]
    · simp only [register, if_neg hp, List.map_cons, ih]
      by_cases hm : u ∈ rest.map Prod.fst
      · simp [hm, Ne.symm hp]
      · simp [hm, Ne.symm hp]

theorem nodup_keys_register {d : Dir} (u c : String)
    (h : (d.map Prod.fst).Nodup) : ((register d u c).map Prod.fst).Nodup := by
  rw [map_fst_register]
  by_cases hm : u ∈ d.map Prod.fst
  · simpa [hm] using h
  · simp [hm, List.nodup_append, h]

theorem removeByConnection_sublist (d : Dir) (c : String) :
    List.Sublist (removeByConnection d c) d := by
  induction d with
  | nil => simp [removeByConnection]
  | cons p rest ih =>
    by_cases hp : p.2 = c
    · simp [removeByConnection, hp, List.sublist_cons_self]
    · simpa [removeByConnection, hp] using ih.cons₂ p

theorem nodup_keys_removeByConnection {d : Dir} (c : String)
    (h : (d.map Prod.fst).Nodup) :
    ((removeByConnection d c).map Prod.fst).Nodup :=
  h.sublist ((removeByConnection_sublist d c).map Prod.fst)

theorem nodup_keys_run (ops : List Op) : ((run ops).map Prod.fst).Nodup := by
  suffices h : ∀ (l : List Op) (d : Dir), (d.map Prod.fst).Nodup →
      ((l.foldl step d).map Prod.fst).Nodup by
    exact h ops [] (by simp)
  intro l
  induction l with
  | nil => intro d hd; simpa using hd
  | cons o rest ih =>
    intro d hd
    simp only [List.foldl_cons]
    apply ih
    cases o with
    | reg u c => exact nodup_keys_register u c hd
    | remByConn c => exact nodup_keys_removeByConnection c hd

theorem mem_run {ops : List Op} {p : String × String} (h : p ∈ run ops) :
    p ∈ regPairs ops := by
  suffices haux : ∀ (l : List Op) (d : Dir) (q : String × String),
      q ∈ l.foldl step d → q ∈ d ∨ q ∈ regPairs l by
    rcases haux ops [] p h with h' | h'
    · simp at h'
    · exact h'
  intro l
  induction l with
  | nil => intro d q hq; simp at hq; simp [hq, regPairs]
  | cons o rest ih =>
    intro d q hq
    simp only [List.foldl_cons] at hq
    rcases ih (step d o) q hq with h' | h'
    · cases o with
      | reg u c =>
        rcases mem_register h' with h'' | h''
        · exact Or.inl h''
        · right; simp [regPairs, h'']
      | remByConn c =>
        exact Or.inl ((removeByConnection_sublist d c).mem h')
    · right
      cases o with
      | reg u c => simp [regPairs] at h' ⊢; exact Or.inr h'
      | remByConn c => simpa [regPairs] using h'

theorem eq_of_mem_nodup_keys {d : Dir} {p q : String × String}
    (hd : (d.map Prod.fst).Nodup) (hp : p ∈ d) (hq : q ∈ d)
    (h : p.1 = q.1) : p = q :=
  List.inj_on_of_nodup_map hd hp hq h

/-- `lookup` after folding a sequence of registrations over an arbitrary
initial directory: the last registration for `u` wins, and when there is
none the initial directory answers. -/
theorem lookup_foldl_register (regs : List (String × String)) (d : Dir) (u : String) :
    lookup (regs.foldl (fun acc p => register acc p.1 p.2) d) u =
      ((regsFor regs u).getLast?).elim (lookup d u) (fun p => some p.2) := by
  induction regs generalizing d with
  | nil => simp [regsFor]
  | cons a rest ih =>
    simp only [List.foldl_cons]
    rw [ih]
    by_cases ha : a.1 = u
    · subst ha
      have hfa : regsFor (a :: rest) a.1 = a :: regsFor rest a.1 := by
        simp [regsFor, List.filter_cons]
      rw [hfa]
      cases hfr : regsFor rest a.1 with
      | nil =>
        simp [hfr, lookup_register_self]
      | cons b l =>
        obtain ⟨x, hx⟩ := Option.isSome_iff_exists.mp
          (List.getLast?_isSome.mpr (List.cons_ne_nil b l))
        simp [hfr, List.getLast?_cons_cons, hx]
    · have hfa : regsFor (a :: rest) u = regsFor rest u := by
        simp [regsFor, List.filter_cons, ha]
      rw [hfa, lookup_register_ne d a.2 ha]

/-!
The notification dispatcher and its two callers (src/server.js lines
429-532).  The like and comment handlers read the post from the `blog_posts`
table, mutate the `likes`/`comments` tables and the counters via RPCs, and
then, when the acting user is not the post owner, look the owner up in
`onlineUsers` and emit a single `notification` event to that socket:

  const receiverSocketId = onlineUsers.get(post.user_id);
  if (receiverSocketId) { io.to(receiverSocketId).emit("notification", {...}); }

We model the database tables as in-memory lists (the hosted backend is an
external collaborator; its calls are assumed to succeed, matching the
handler paths the claims are about), and a delivery event as the pair of
the receiving connection handle and the emitted payload.  The JavaScript
truthiness test `if (receiverSocketId)` is kept as written: it fails for
`undefined` (absent) and for the empty string, and succeeds for every
transport-assigned socket id (those are never empty).
-/

/-- The `notification` event payload emitted by the handlers. -/
structure Payload where
  message : String
  type : String
  postId : String
deriving DecidableEq

/-- A delivery event: the connection handle the event is emitted to,
together with the payload. -/
abbrev Delivery := String × Payload

/-- The notification dispatch shared by the like and comment handlers:
look the target user up in the directory; when a (truthy) connection handle
is found, emit exactly one event to it.  Returns the emitted deliveries and
the directory, which is read but never written. -/
def notify (dir : Dir) (userId : String) (payload : Payload) :
    List Delivery × Dir :=
  match lookup dir userId with
  | some receiverSocketId =>
    if receiverSocketId = "" then ([], dir)
    else ([(receiverSocketId, payload)], dir)
  | none => ([], dir)

/-- A row of the `blog_posts` table (the fields the handlers touch). -/
structure Post where
  id : String
  user_id : String
  like_count : Int
  comment_count : Int
deriving DecidableEq

/-- A row of the `likes` table. -/
structure LikeRow where
  post_id : String
  user_id : String
deriving DecidableEq

/-- A row of the `comments` table. -/
structure CommentRow where
  post_id : String
  user_id : String
  content : String
deriving DecidableEq

/-- The database tables the like/comment handlers touch. -/
structure DB where
  posts : List Post
  likes : List LikeRow
  comments : List CommentRow
deriving DecidableEq

/-- `.from("blog_posts").select(...).eq("id", post_id).single()`. -/
def findPost (db : DB) (pid : String) : Option Post :=
  db.posts.find? fun p => p.id == pid

/-- The `decrement_like_count` RPC: subtract one from the matching post's
like counter. -/
def decrementLikeCount (db : DB) (pid : String) : DB :=
  { db with posts := db.posts.map fun p =>
      if p.id == pid then { p with like_count := p.like_count - 1 } else p }

/-- The `increment_like_count` RPC: add one to the matching post's like
counter. -/
def incrementLikeCount (db : DB) (pid : String) : DB :=
  { db with posts := db.posts.map fun p =>
      if p.id == pid then { p with like_count := p.like_count + 1 } else p }

/-- The `increment_comment_count` RPC: add one to the matching post's
comment counter. -/
def incrementCommentCount (db : DB) (pid : String) : DB :=
  { db with posts := db.posts.map fun p =>
      if p.id == pid then { p with comment_count := p.comment_count + 1 } else p }

/-- Response of `POST /api/posts/:id/like`. -/
inductive LikeResponse where
  | notFound
  | ok (liked : Bool)
deriving DecidableEq

/-- Response of `POST /api/posts/:id/comments`. -/
inductive CommentResponse where
  | badRequest
  | notFound
  | ok (c : CommentRow)
deriving DecidableEq

/-- `POST /api/posts/:id/like` (src/server.js lines 429-489): toggle the
like of `user_id` on post `post_id`; on a fresh like, notify the post owner
unless the owner is the liker. -/
def likeHandler (db : DB) (dir : Dir) (post_id user_id senderUsername : String) :
    LikeResponse × DB × List Delivery :=
  match findPost db post_id with
  | none => (LikeResponse.notFound, db, [])
  | some post =>
    match db.likes.find? (fun l => l.post_id == post_id && l.user_id == user_id) with
    | some _ =>
      (LikeResponse.ok false,
       decrementLikeCount
         { db with likes :=
             db.likes.filter fun l => !(l.post_id == post_id && l.user_id == user_id) }
         post_id,
       [])
    | none =>
      (LikeResponse.ok true,
       incrementLikeCount
         { db with likes := db.likes ++ [{ post_id := post_id, user_id := user_id }] }
         post_id,
       if post.user_id != user_id then
         (notify dir post.user_id
           { message := senderUsername ++ " liked your post"
             type := "like", postId := post_id }).1
       else [])

/-- `POST /api/posts/:id/comments` (src/server.js lines 492-532): insert a
comment; on success, notify the post owner unless the owner is the
commenter.  `if (!content)` rejects a missing/empty content string. -/
def commentHandler (db : DB) (dir : Dir) (post_id user_id senderUsername content : String) :
    CommentResponse × DB × List Delivery :=
  if content = "" then (CommentResponse.badRequest, db, [])
  else
    match findPost db post_id with
    | none => (CommentResponse.notFound, db, [])
    | some post =>
      (CommentResponse.ok { post_id := post_id, user_id := user_id, content := content },
       incrementCommentCount
         { db with comments :=
             db.comments ++ [{ post_id := post_id, user_id := user_id, content := content }] }
         post_id,
       if post.user_id != user_id then
         (notify dir post.user_id
           { message := senderUsername ++ " commented on your post"
             type := "comment", postId := post_id }).1
       else [])

/-- Helper: a user identity that is not a key of the directory looks up to
`none`. -/
theorem lookup_eq_none_of_not_mem_keys {d : Dir} {u : String}
    (h : u ∉ d.map Prod.fst) : lookup d u = none := by
  induction d with
  | nil => simp [lookup]
  | cons p rest ih =>
    simp only [List.map_cons, List.mem_cons, not_or] at h
    simp [lookup, Ne.symm h.1, ih h.2]

/-- Claim C1 counterexample: the reachable state after `register("u1","c")`
then `register("u2","c")` stores the connection handle `"c"` for the two
distinct user identities `"u1"` and `"u2"`, so a connection handle can
appear as the stored value of more than one user identity. -/
theorem C1_counterexample :
    ("u1", "c") ∈ run [Op.reg "u1" "c", Op.reg "u2" "c"] ∧
    ("u2", "c") ∈ run [Op.reg "u1" "c", Op.reg "u2" "c"] ∧
    ("u1" : String) ≠ "u2" := by
  decide

/-- Claim C1 (amended): if no connection handle is registered for two
different user identities anywhere in the operation sequence (which is what
the transport layer guarantees, since each socket id belongs to one
client), then in every reachable state each connection handle appears as
the stored value for at most one user identity: any two stored entries with
the same handle are the same entry. -/
theorem C1_unique_handle_owner (ops : List Op)
    (h : ∀ p ∈ regPairs ops, ∀ q ∈ regPairs ops, p.2 = q.2 → p.1 = q.1)
    {p q : String × String} (hp : p ∈ run ops) (hq : q ∈ run ops)
    (hpq : p.2 = q.2) : p = q := by
  have h1 : p.1 = q.1 := h p (mem_run hp) q (mem_run hq) hpq
  exact eq_of_mem_nodup_keys (nodup_keys_run ops) hp hq h1

/-- Witness for the amended claim C1 at the concrete sequence
`[register("a","x")]`. -/
theorem C1_witness :
    (∀ p ∈ regPairs [Op.reg "a" "x"], ∀ q ∈ regPairs [Op.reg "a" "x"],
      p.2 = q.2 → p.1 = q.1) ∧
    ("a", "x") ∈ run [Op.reg "a" "x"] ∧
    (("a", "x") : String × String) = ("a", "x") :=
  ⟨by decide, by decide,
    C1_unique_handle_owner [Op.reg "a" "x"] (by decide) (by decide) (by decide) rfl⟩

/-- Claim C2: for every sequence of bare registrations, `lookup u` returns
exactly the handle of the most recent registration for `u` (and `none` when
there is none); and in every reachable state (registrations and removals)
the user identities stored in the directory are pairwise distinct, i.e. at
most one connection handle is stored per user identity. -/
theorem C2_last_registration_wins :
    (∀ (regs : List (String × String)) (u : String),
        lookup (regRun regs) u = ((regsFor regs u).getLast?).map Prod.snd) ∧
    (∀ ops : List Op, ((run ops).map Prod.fst).Nodup) := by
  refine ⟨?_, nodup_keys_run⟩
  intro regs u
  rw [regRun, lookup_foldl_register regs [] u]
  cases (regsFor regs u).getLast? <;> simp [lookup]

/-- Claim C3 counterexample: in the reachable state after
`register("v","c")` then `register("u","c")`, the directory maps `"u"` to
`"c"`, yet after `removeByConnection("c")` the lookup of `"u"` still
returns `"c"` (the removal deleted the entry of `"v"`, the first match). -/
theorem C3_counterexample :
    lookup (run [Op.reg "v" "c", Op.reg "u" "c"]) "u" = some "c" ∧
    lookup (removeByConnection (run [Op.reg "v" "c", Op.reg "u" "c"]) "c") "u" = some "c" := by
  decide

/-- Claim C3 (amended): in a directory with pairwise-distinct user
identities that maps `u` to `c`, where no entry of another user stores the
handle `c`, `removeByConnection c` makes `lookup u` return absent. -/
theorem C3_remove_makes_absent {d : Dir} {u c : String}
    (hnd : (d.map Prod.fst).Nodup)
    (hl : lookup d u = some c)
    (honly : ∀ p ∈ d, p.2 = c → p.1 = u) :
    lookup (removeByConnection d c) u = none := by
  induction d with
  | nil => simp [lookup] at hl
  | cons p rest ih =>
    rw [List.map_cons, List.nodup_cons] at hnd
    by_cases hpc : p.2 = c
    · have hpu : p.1 = u := honly p (List.mem_cons_self p rest) hpc
      simp only [removeByConnection, if_pos hpc]
      exact lookup_eq_none_of_not_mem_keys (hpu ▸ hnd.1)
    · have hpu : p.1 ≠ u := by
        intro hpu
        rw [lookup, if_pos hpu] at hl
        exact hpc (Option.some_injective _ hl)
      rw [lookup, if_neg hpu] at hl
      simp only [removeByConnection, if_neg hpc, lookup, if_neg hpu]
      exact ih hnd.2 hl fun q hq hqc => honly q (List.mem_cons_of_mem p hq) hqc

/-- Witness for the amended claim C3 at the concrete state `[("u","c")]`. -/
theorem C3_witness :
    ((([("u", "c")] : Dir).map Prod.fst).Nodup ∧
      lookup [("u", "c")] "u" = some "c" ∧
      (∀ p ∈ ([("u", "c")] : Dir), p.2 = "c" → p.1 = "u")) ∧
    lookup (removeByConnection [("u", "c")] "c") "u" = none :=
  ⟨⟨by decide, by decide, by decide⟩,
    C3_remove_makes_absent (by decide) (by decide) (by decide)⟩

/-- Claim C4: `removeByConnection c` on a directory in which no entry
stores the handle `c` is a no-op (the directory is unchanged, so no other
entry is affected); in particular, in the spec's scenario
`register("user42","sockA"); register("user42","sockB")` the stale removal
`removeByConnection("sockA")` leaves `lookup("user42") = "sockB"`, and the
subsequent `removeByConnection("sockB")` makes it absent. -/
theorem C4_remove_unregistered_noop :
    (∀ (d : Dir) (c : String), (∀ p ∈ d, p.2 ≠ c) → removeByConnection d c = d) ∧
    lookup (register (register [] "user42" "sockA") "user42" "sockB") "user42"
      = some "sockB" ∧
    lookup (removeByConnection
      (register (register [] "user42" "sockA") "user42" "sockB") "sockA") "user42"
      = some "sockB" ∧
    lookup (removeByConnection (removeByConnection
      (register (register [] "user42" "sockA") "user42" "sockB") "sockA") "sockB")
      "user42" = none := by
  refine ⟨?_, by decide, by decide, by decide⟩
  intro d c h
  induction d with
  | nil => simp [removeByConnection]
  | cons p rest ih =>
    have hp : p.2 ≠ c := h p (List.mem_cons_self p rest)
    rw [removeByConnection, if_neg hp, ih fun q hq => h q (List.mem_cons_of_mem p hq)]

/-- Witness for claim C4's universally quantified no-op statement at the
concrete directory `[("a","x")]` and unregistered handle `"y"`. -/
theorem C4_witness :
    (∀ p ∈ ([("a", "x")] : Dir), p.2 ≠ "y") ∧
    removeByConnection [("a", "x")] "y" = [("a", "x")] :=
  ⟨by decide, C4_remove_unregistered_noop.1 [("a", "x")] "y" (by decide)⟩

/-- Claim C8: `register` is total (it returns a directory for every input,
with no error condition) and idempotent: registering the same pair twice in
succession yields the same directory as registering it once. -/
theorem C8_register_idempotent :
    ∀ (d : Dir) (u c : String), register (register d u c) u c = register d u c := by
  intro d u c
  induction d with
  | nil => simp [register]
  | cons p rest ih =>
    by_cases hp : p.1 = u
    · simp [register, hp]
    · simp [register, hp, ih]

/-- Claim C9: `removeByConnection c` removes exactly the first entry (in
insertion order) whose stored value is `c` and leaves every other entry in
place — in particular every later entry that also maps to `c`. -/
theorem C9_removes_first_match_only (d₁ d₂ : Dir) (u c : String)
    (h : ∀ q ∈ d₁, q.2 ≠ c) :
    removeByConnection (d₁ ++ (u, c) :: d₂) c = d₁ ++ d₂ := by
  induction d₁ with
  | nil => simp [removeByConnection]
  | cons p rest ih =>
    have hp : p.2 ≠ c := h p (List.mem_cons_self p rest)
    simp only [List.cons_append, removeByConnection, if_neg hp, List.append_eq]
    rw [ih fun q hq => h q (List.mem_cons_of_mem p hq)]

/-- Witness for claim C9 at a concrete state in which the two distinct
users `"u1"` and `"u2"` both map to `"c"`: only the first entry is removed
and the entry of `"u2"` stays. -/
theorem C9_witness :
    (∀ q ∈ ([] : Dir), q.2 ≠ "c") ∧
    removeByConnection [("u1", "c"), ("u2", "c")] "c" = [("u2", "c")] :=
  ⟨by decide, C9_removes_first_match_only [] [("u2", "c")] "u1" "c" (by decide)⟩

/-- Claim C5: when the target user has no entry in the directory, `notify`
performs no delivery and leaves the directory unchanged; the function is
total, so no error is raised and the caller never observes a failure. -/
theorem C5_notify_absent_silent (d : Dir) (u : String) (p : Payload)
    (h : lookup d u = none) : notify d u p = ([], d) := by
  simp [notify, h]

/-- Witness for claim C5 at the empty directory. -/
theorem C5_witness :
    lookup [] "user42" = none ∧
    notify [] "user42" { message := "x", type := "like", postId := "1" } = ([], []) :=
  ⟨rfl, C5_notify_absent_silent [] "user42" _ rfl⟩

/-- Claim C6: when the directory maps the target user `u` to the connection
handle `c` (a transport-assigned socket id, hence nonempty), `notify`
produces exactly one delivery event, on connection `c`, whose payload is
the given payload, and leaves the directory unchanged. -/
theorem C6_notify_present_single_delivery (d : Dir) (u c : String) (p : Payload)
    (hl : lookup d u = some c) (hc : c ≠ "") :
    notify d u p = ([(c, p)], d) := by
  simp [notify, hl, hc]

/-- Witness for claim C6 at the concrete directory `[("user42","sock1")]`. -/
theorem C6_witness :
    lookup [("user42", "sock1")] "user42" = some "sock1" ∧
    notify [("user42", "sock1")] "user42"
        { message := "m", type := "comment", postId := "7" }
      = ([("sock1", { message := "m", type := "comment", postId := "7" })],
         [("user42", "sock1")]) :=
  ⟨rfl, C6_notify_present_single_delivery _ _ _ _ rfl (by decide)⟩

/-- Claim C7: the like and comment handlers never self-notify: when the
acting user is the owner of the target post, neither handler emits any
delivery event, whatever the database, directory and remaining inputs. -/
theorem C7_no_self_notification (db : DB) (dir : Dir)
    (pid uid uname content : String) (post : Post)
    (hp : findPost db pid = some post) (hown : post.user_id = uid) :
    (likeHandler db dir pid uid uname).2.2 = [] ∧
    (commentHandler db dir pid uid uname content).2.2 = [] := by
  constructor
  · simp only [likeHandler, hp]
    cases db.likes.find? (fun l => l.post_id == pid && l.user_id == uid) with
    | some x => simp
    | none => simp [hown]
  · by_cases hcnt : content = ""
    · simp [commentHandler, hcnt]
    · simp [commentHandler, hcnt, hp, hown]

/-- Witness for claim C7: the owner `"alice"` of post `"p1"` likes and
comments on her own post while online; no delivery is emitted. -/
theorem C7_witness :
    (findPost ⟨[⟨"p1", "alice", 0, 0⟩], [], []⟩ "p1"
      = some (⟨"p1", "alice", 0, 0⟩ : Post)) ∧
    (likeHandler ⟨[⟨"p1", "alice", 0, 0⟩], [], []⟩ [("alice", "s1")]
      "p1" "alice" "alice").2.2 = [] ∧
    (commentHandler ⟨[⟨"p1", "alice", 0, 0⟩], [], []⟩ [("alice", "s1")]
      "p1" "alice" "alice" "hi").2.2 = [] :=
  ⟨by decide,
    (C7_no_self_notification ⟨[⟨"p1", "alice", 0, 0⟩], [], []⟩ [("alice", "s1")]
      "p1" "alice" "alice" "hi" ⟨"p1", "alice", 0, 0⟩ (by decide) rfl).1,
    (C7_no_self_notification ⟨[⟨"p1", "alice", 0, 0⟩], [], []⟩ [("alice", "s1")]
      "p1" "alice" "alice" "hi" ⟨"p1", "alice", 0, 0⟩ (by decide) rfl).2⟩

/-- Claim C10: when the acting user has already liked the post, the like
handler deletes the like row, responds `{ liked: false }`, and emits no
delivery event on any connection, whatever the directory contains. -/
theorem C10_unlike_no_notification (db : DB) (dir : Dir)
    (pid uid uname : String) (post : Post) (lk : LikeRow)
    (hp : findPost db pid = some post)
    (hl : db.likes.find? (fun l => l.post_id == pid && l.user_id == uid) = some lk) :
    (likeHandler db dir pid uid uname).1 = LikeResponse.ok false ∧
    (likeHandler db dir pid uid uname).2.2 = [] ∧
    (likeHandler db dir pid uid uname).2.1.likes =
      db.likes.filter (fun l => !(l.post_id == pid && l.user_id == uid)) := by
  simp [likeHandler, hp, hl, decrementLikeCount]

/-- Witness for claim C10: `"bob"` has already liked `"alice"`'s post
`"p1"` and toggles it off while `"alice"` is online; the like row is
removed, the response is `{ liked: false }` and nothing is delivered. -/
theorem C10_witness :
    (findPost ⟨[⟨"p1", "alice", 1, 0⟩], [⟨"p1", "bob"⟩], []⟩ "p1"
      = some (⟨"p1", "alice", 1, 0⟩ : Post)) ∧
    (List.find? (fun l => l.post_id == "p1" && l.user_id == "bob")
      [(⟨"p1", "bob"⟩ : LikeRow)] = some (⟨"p1", "bob"⟩ : LikeRow)) ∧
    (likeHandler ⟨[⟨"p1", "alice", 1, 0⟩], [⟨"p1", "bob"⟩], []⟩ [("alice", "s1")]
      "p1" "bob" "bob").1 = LikeResponse.ok false ∧
    (likeHandler ⟨[⟨"p1", "alice", 1, 0⟩], [⟨"p1", "bob"⟩], []⟩ [("alice", "s1")]
      "p1" "bob" "bob").2.2 = [] :=
  ⟨by decide, by decide,
    (C10_unlike_no_notification ⟨[⟨"p1", "alice", 1, 0⟩], [⟨"p1", "bob"⟩], []⟩
      [("alice", "s1")] "p1" "bob" "bob" ⟨"p1", "alice", 1, 0⟩ ⟨"p1", "bob"⟩
      (by decide) (by decide)).1,
    (C10_unlike_no_notification ⟨[⟨"p1", "alice", 1, 0⟩], [⟨"p1", "bob"⟩], []⟩
      [("alice", "s1")] "p1" "bob" "bob" ⟨"p1", "alice", 1, 0⟩ ⟨"p1", "bob"⟩
      (by decide) (by decide)).2.1⟩
